import Mathlib

/-!
Shallow embedding of the image-stitching script (stitching_1.py) of the
blender_hangar repository, together with theorems settling the claims of
its specification.  Pixel coordinates and matrix entries are modelled as
rationals; the numpy int32 cast is modelled as exact truncation toward
zero on the rational value.
-/

set_option autoImplicit false

namespace Stitching

/-- A planar point (x, y); origin top-left, x right, y down. -/
structure Pt where
  x : ℚ
  y : ℚ
deriving DecidableEq, Repr

/-- A feature match as produced by the brute-force matcher: indices of the
query and train keypoints and the descriptor distance. -/
structure DMatch where
  queryIdx : ℕ
  trainIdx : ℕ
  distance : ℚ
deriving DecidableEq, Repr

/-- A 3 by 3 matrix of rationals, row major. -/
structure Mat3 where
  m00 : ℚ
  m01 : ℚ
  m02 : ℚ
  m10 : ℚ
  m11 : ℚ
  m12 : ℚ
  m20 : ℚ
  m21 : ℚ
  m22 : ℚ
deriving DecidableEq, Repr

/-- Matrix product of two 3 by 3 matrices (the @ operator of the script). -/
def mat3Mul (A B : Mat3) : Mat3 where
  m00 := A.m00 * B.m00 + A.m01 * B.m10 + A.m02 * B.m20
  m01 := A.m00 * B.m01 + A.m01 * B.m11 + A.m02 * B.m21
  m02 := A.m00 * B.m02 + A.m01 * B.m12 + A.m02 * B.m22
  m10 := A.m10 * B.m00 + A.m11 * B.m10 + A.m12 * B.m20
  m11 := A.m10 * B.m01 + A.m11 * B.m11 + A.m12 * B.m21
  m12 := A.m10 * B.m02 + A.m11 * B.m12 + A.m12 * B.m22
  m20 := A.m20 * B.m00 + A.m21 * B.m10 + A.m22 * B.m20
  m21 := A.m20 * B.m01 + A.m21 * B.m11 + A.m22 * B.m21
  m22 := A.m20 * B.m02 + A.m21 * B.m12 + A.m22 * B.m22

/-- The translation matrix H_translation built in the script from the
translation distances. -/
def translationMat3 (tx ty : ℤ) : Mat3 :=
  ⟨1, 0, (tx : ℚ), 0, 1, (ty : ℚ), 0, 0, 1⟩

/-- The identity homography. -/
def idMat3 : Mat3 := ⟨1, 0, 0, 0, 1, 0, 0, 0, 1⟩

/-- Application of a homography to a point with the projective division,
as cv2.perspectiveTransform does for each point.  Division is the total
division on rationals. -/
def perspectiveTransform (H : Mat3) (p : Pt) : Pt :=
  let w := H.m20 * p.x + H.m21 * p.y + H.m22
  ⟨(H.m00 * p.x + H.m01 * p.y + H.m02) / w,
   (H.m10 * p.x + H.m11 * p.y + H.m12) / w⟩

/-- Truncation toward zero, the conversion a numpy int32 cast applies to a
floating-point value. -/
def truncZ (q : ℚ) : ℤ :=
  if q < 0 then ⌈q⌉ else ⌊q⌋

/-- Minimum of a list of rationals (0 on the empty list, which the script
never produces: its corner list always has eight points). -/
def minQ : List ℚ → ℚ
  | [] => 0
  | h :: t => t.foldl min h

/-- Maximum of a list of rationals (0 on the empty list). -/
def maxQ : List ℚ → ℚ
  | [] => 0
  | h :: t => t.foldl max h

/-- The four corners [[0, 0], [0, h], [w, h], [w, 0]] of an image of width
w and height h, as in the script. -/
def cornersOf (w h : ℕ) : List Pt :=
  [⟨0, 0⟩, ⟨0, (h : ℚ)⟩, ⟨(w : ℚ), (h : ℚ)⟩, ⟨(w : ℚ), 0⟩]

/-- The concatenation all_corners of the H-transformed corners of image A
with the untransformed corners of image B. -/
def allCorners (H : Mat3) (w1 h1 w2 h2 : ℕ) : List Pt :=
  (cornersOf w1 h1).map (perspectiveTransform H) ++ cornersOf w2 h2

/-- The extremal integer corner coordinates computed by the script:
x_min, y_min, x_max, y_max, each an int32 truncation of the exact
extremum over the eight corners. -/
structure CanvasPlan where
  xMin : ℤ
  yMin : ℤ
  xMax : ℤ
  yMax : ℤ
deriving DecidableEq, Repr

/-- The canvas-extent computation of the script: transform the corners of
image A by H, join with the corners of image B, and truncate the
coordinate extrema to integers with the int32 cast. -/
def canvasPlan (H : Mat3) (w1 h1 w2 h2 : ℕ) : CanvasPlan :=
  let cs := allCorners H w1 h1 w2 h2
  { xMin := truncZ (minQ (cs.map Pt.x))
    yMin := truncZ (minQ (cs.map Pt.y))
    xMax := truncZ (maxQ (cs.map Pt.x))
    yMax := truncZ (maxQ (cs.map Pt.y)) }

/-- The canvas width x_max - x_min passed to warpPerspective. -/
def CanvasPlan.sizeW (p : CanvasPlan) : ℤ := p.xMax - p.xMin

/-- The canvas height y_max - y_min passed to warpPerspective. -/
def CanvasPlan.sizeH (p : CanvasPlan) : ℤ := p.yMax - p.yMin

/-- The first translation distance, -x_min. -/
def CanvasPlan.tx (p : CanvasPlan) : ℤ := -p.xMin

/-- The second translation distance, -y_min. -/
def CanvasPlan.ty (p : CanvasPlan) : ℤ := -p.yMin

/-- An image: width, height, and a pixel buffer indexed row (y) first.
Pixel values are modelled as rationals (one channel; the channel count is
irrelevant to every claim, each channel is copied the same way). -/
structure Img where
  width : ℕ
  height : ℕ
  pix : ℕ → ℕ → ℚ

/-- Pixel access at possibly out-of-range integer coordinates, zero
outside the image (the border value used by warpPerspective). -/
def pixAt (a : Img) (y x : ℤ) : ℚ :=
  if 0 ≤ y ∧ y < (a.height : ℤ) ∧ 0 ≤ x ∧ x < (a.width : ℤ) then
    a.pix y.toNat x.toNat
  else 0

/-- Determinant of a 3 by 3 matrix. -/
def mat3Det (M : Mat3) : ℚ :=
  M.m00 * (M.m11 * M.m22 - M.m12 * M.m21)
    - M.m01 * (M.m10 * M.m22 - M.m12 * M.m20)
    + M.m02 * (M.m10 * M.m21 - M.m11 * M.m20)

/-- Inverse of a 3 by 3 matrix via the adjugate; with total rational
division a singular input yields the zero matrix. -/
def mat3Inv (M : Mat3) : Mat3 :=
  let d := mat3Det M
  ⟨(M.m11 * M.m22 - M.m12 * M.m21) / d,
   (M.m02 * M.m21 - M.m01 * M.m22) / d,
   (M.m01 * M.m12 - M.m02 * M.m11) / d,
   (M.m12 * M.m20 - M.m10 * M.m22) / d,
   (M.m00 * M.m22 - M.m02 * M.m20) / d,
   (M.m02 * M.m10 - M.m00 * M.m12) / d,
   (M.m10 * M.m21 - M.m11 * M.m20) / d,
   (M.m01 * M.m20 - M.m00 * M.m21) / d,
   (M.m00 * M.m11 - M.m01 * M.m10) / d⟩

/-- Bilinear interpolation of the image at a rational source coordinate,
with zero outside the image bounds. -/
def bilinearSample (a : Img) (p : Pt) : ℚ :=
  let x0 : ℤ := ⌊p.x⌋
  let y0 : ℤ := ⌊p.y⌋
  let fx : ℚ := p.x - (x0 : ℚ)
  let fy : ℚ := p.y - (y0 : ℚ)
  (1 - fy) * ((1 - fx) * pixAt a y0 x0 + fx * pixAt a y0 (x0 + 1))
    + fy * ((1 - fx) * pixAt a (y0 + 1) x0 + fx * pixAt a (y0 + 1) (x0 + 1))

/-- Modelled from the spec: the PerspectiveWarper component, realised in
the script by the external cv2.warpPerspective call whose code is not part
of the repository.  For every destination pixel of the target canvas it
inverse-maps the coordinate through the composed transform, samples image
A there by bilinear interpolation, and uses a zero background outside the
source bounds; it never writes to image A. -/
def warpPerspectiveImg (a : Img) (M : Mat3) (w h : ℕ) : Img where
  width := w
  height := h
  pix := fun y x =>
    bilinearSample a (perspectiveTransform (mat3Inv M) ⟨(x : ℚ), (y : ℚ)⟩)

/-- The compositing step of the script: the slice assignment
result[ty : ty + h2, tx : tx + w2] = img2, which overwrites the rectangle
of the shape of image B at offset (tx, ty) with the pixels of image B and
leaves every other pixel of the canvas unchanged.  (In the script the
rectangle always fits inside the canvas, see the C10 theorem; numpy would
reject the assignment otherwise.) -/
def compositeImg (canvas b : Img) (tx ty : ℕ) : Img where
  width := canvas.width
  height := canvas.height
  pix := fun y x =>
    if ty ≤ y ∧ y < ty + b.height ∧ tx ≤ x ∧ x < tx + b.width then
      b.pix (y - ty) (x - tx)
    else canvas.pix y x

/-- Unpacking of one knnMatch entry by the tuple pattern (m, n) of the
list comprehension: succeeds only on a list of exactly two matches and
raises a ValueError otherwise, as Python iterable unpacking does. -/
def unpackPair2 : List DMatch → Except String (DMatch × DMatch)
  | [m, n] => Except.ok (m, n)
  | [] => Except.error "ValueError: not enough values to unpack"
  | [_] => Except.error "ValueError: not enough values to unpack"
  | _ => Except.error "ValueError: too many values to unpack"

/-- The ratio-test list comprehension of the script applied to the raw
knnMatch output, element by element as Python evaluates it: unpack the
entry as a pair (m, n), keep m whenever m.distance < r * n.distance; any
entry that is not a two-element list makes the whole comprehension raise,
and the first offending entry decides the error. -/
def knnRatioFilter (r : ℚ) : List (List DMatch) → Except String (List DMatch)
  | [] => Except.ok []
  | entry :: rest =>
    match unpackPair2 entry with
    | Except.error e => Except.error e
    | Except.ok (m, n) =>
      match knnRatioFilter r rest with
      | Except.error e => Except.error e
      | Except.ok out =>
        Except.ok (if m.distance < r * n.distance then m :: out else out)

/-- The retain-and-project step of the comprehension on well-formed
pair entries. -/
def ratioTestPairs (r : ℚ) (ms : List (DMatch × DMatch)) : List DMatch :=
  (ms.filter fun p => decide (p.1.distance < r * p.2.distance)).map Prod.fst

/-- Outcome of one script run: either the stitched panorama or the
message printed by the else branch. -/
inductive ScriptOutcome where
  | stitched : Img → ScriptOutcome
  | notEnoughMatches : ScriptOutcome

/-- The tail of the script after the good-match filter: the length gate
len(good_matches) > 10 decides between the stitching pipeline and the
message of the else branch.  The homography H is the result of the
external cv2.findHomography call, taken here as an input. -/
def stitchTail (img1 img2 : Img) (good : List DMatch) (H : Mat3) :
    ScriptOutcome :=
  if good.length > 10 then
    let plan := canvasPlan H img1.width img1.height img2.width img2.height
    let M := mat3Mul (translationMat3 plan.tx plan.ty) H
    let warped := warpPerspectiveImg img1 M plan.sizeW.toNat plan.sizeH.toNat
    ScriptOutcome.stitched (compositeImg warped img2 plan.tx.toNat plan.ty.toNat)
  else ScriptOutcome.notEnoughMatches

/-- The local image variables of one script run together with the result
buffer.  Each stage of the script writes only the variable it produces;
the state record makes that frame effect explicit. -/
structure PipelineState where
  img1 : Img
  img2 : Img
  result : Option Img

/-- The warp stage of the script: result = cv2.warpPerspective(img1,
H_translation @ H, (x_max - x_min, y_max - y_min)).  It binds a fresh
canvas-sized buffer to result and reads, never writes, img1. -/
def warpStage (H : Mat3) (s : PipelineState) : PipelineState :=
  let plan := canvasPlan H s.img1.width s.img1.height s.img2.width s.img2.height
  { s with
    result := some (warpPerspectiveImg s.img1
      (mat3Mul (translationMat3 plan.tx plan.ty) H)
      plan.sizeW.toNat plan.sizeH.toNat) }

/-- The compositing stage of the script: the slice assignment writes into
result and reads, never writes, img2. -/
def compositeStage (H : Mat3) (s : PipelineState) : PipelineState :=
  let plan := canvasPlan H s.img1.width s.img1.height s.img2.width s.img2.height
  { s with
    result := s.result.map fun r =>
      compositeImg r s.img2 plan.tx.toNat plan.ty.toNat }

/-- The failure taxonomy of the specification, section 7. -/
inductive FailureKind where
  | insufficientCorrespondences
  | degenerateOrInsufficientInliers
  | singularHomography
  | invalidCanvasExtent
  | imageIOFailure
deriving DecidableEq, Repr

/-- Modelled from the spec: what the script reports to its caller for
each failure kind of the taxonomy of section 7, whose multi-kind outcome
type exists only in the specification.  The script contains exactly one
failure handler, the else branch of the length gate, which prints one
fixed message for the insufficient-correspondences condition; no other
kind is detected or reported anywhere in the script (the corresponding
library failures would surface as uncaught exceptions, not as reported
outcomes). -/
def scriptReport : FailureKind → Option String
  | FailureKind.insufficientCorrespondences =>
      some "Not enough good matches found!"
  | _ => none

/-- Boolean success test on an Except value. -/
def exceptOk {α : Type} (e : Except String α) : Bool :=
  match e with
  | Except.ok _ => true
  | Except.error _ => false

/-- Canvas extents and translation in the form the specification words
prescribe them. -/
structure CanvasPlanSpec where
  width : ℤ
  height : ℤ
  tx : ℤ
  ty : ℤ
deriving DecidableEq, Repr

/-- Spec-side canvas planner, written from the words of the specification
for comparison with canvasPlan: width = ceil(xmax) - floor(xmin), height
= ceil(ymax) - floor(ymin), translation (tx, ty) = (-floor(xmin),
-floor(ymin)), over the same eight corner points. -/
def canvasPlanSpecCF (H : Mat3) (w1 h1 w2 h2 : ℕ) : CanvasPlanSpec :=
  let cs := allCorners H w1 h1 w2 h2
  { width := ⌈maxQ (cs.map Pt.x)⌉ - ⌊minQ (cs.map Pt.x)⌋
    height := ⌈maxQ (cs.map Pt.y)⌉ - ⌊minQ (cs.map Pt.y)⌋
    tx := -⌊minQ (cs.map Pt.x)⌋
    ty := -⌊minQ (cs.map Pt.y)⌋ }

/-- Homography translating image A left by half a pixel. -/
def hShiftNegHalf : Mat3 := ⟨1, 0, -(1/2 : ℚ), 0, 1, 0, 0, 0, 1⟩

/-- Homography translating image A down by one hundred pixels. -/
def hShiftDown100 : Mat3 := ⟨1, 0, 0, 0, 1, 100, 0, 0, 1⟩

/-- A uniform image with every pixel equal to the given value. -/
def solidImg (w h : ℕ) (v : ℚ) : Img :=
  ⟨w, h, fun _ _ => v⟩

/-- A concrete list of four good matches. -/
def fourMatches : List DMatch :=
  [⟨0, 0, 1⟩, ⟨1, 1, 1⟩, ⟨2, 2, 1⟩, ⟨3, 3, 1⟩]

/-! ### Helper lemmas about list extrema and truncation -/

theorem foldl_min_le_init (l : List ℚ) (a : ℚ) : l.foldl min a ≤ a := by
  induction l generalizing a with
  | nil => exact le_refl a
  | cons h t ih => exact le_trans (ih (min a h)) (min_le_left a h)

theorem foldl_min_le_of_mem (l : List ℚ) (a x : ℚ) (hx : x ∈ l) :
    l.foldl min a ≤ x := by
  induction l generalizing a with
  | nil => cases hx
  | cons h t ih =>
    rcases List.mem_cons.mp hx with rfl | hmem
    · exact le_trans (foldl_min_le_init t (min a x)) (min_le_right a x)
    · exact ih (min a h) hmem

theorem minQ_le_of_mem {l : List ℚ} {x : ℚ} (hx : x ∈ l) : minQ l ≤ x := by
  cases l with
  | nil => cases hx
  | cons h t =>
    rcases List.mem_cons.mp hx with rfl | hmem
    · exact foldl_min_le_init t x
    · exact foldl_min_le_of_mem t h x hmem

theorem init_le_foldl_max (l : List ℚ) (a : ℚ) : a ≤ l.foldl max a := by
  induction l generalizing a with
  | nil => exact le_refl a
  | cons h t ih => exact le_trans (le_max_left a h) (ih (max a h))

theorem mem_le_foldl_max (l : List ℚ) (a x : ℚ) (hx : x ∈ l) :
    x ≤ l.foldl max a := by
  induction l generalizing a with
  | nil => cases hx
  | cons h t ih =>
    rcases List.mem_cons.mp hx with rfl | hmem
    · exact le_trans (le_max_right a x) (init_le_foldl_max t (max a x))
    · exact ih (max a h) hmem

theorem le_maxQ_of_mem {l : List ℚ} {x : ℚ} (hx : x ∈ l) : x ≤ maxQ l := by
  cases l with
  | nil => cases hx
  | cons h t =>
    rcases List.mem_cons.mp hx with rfl | hmem
    · exact init_le_foldl_max t x
    · exact mem_le_foldl_max t h x hmem

theorem truncZ_nonpos {q : ℚ} (h : q ≤ 0) : truncZ q ≤ 0 := by
  unfold truncZ
  split
  · exact Int.ceil_le.mpr (by exact_mod_cast h)
  · have hq : (⌊q⌋ : ℚ) ≤ 0 := le_trans (Int.floor_le q) h
    exact_mod_cast hq

theorem natCast_le_truncZ {n : ℕ} {q : ℚ} (h : (n : ℚ) ≤ q) :
    (n : ℤ) ≤ truncZ q := by
  unfold truncZ
  split
  · rename_i hq
    have hn : (0 : ℚ) ≤ (n : ℚ) := by positivity
    linarith
  · exact Int.le_floor.mpr (by exact_mod_cast h)

theorem truncZ_lt_add_one (q : ℚ) : (truncZ q : ℚ) < q + 1 := by
  unfold truncZ
  split
  · exact_mod_cast Int.ceil_lt_add_one q
  · have hq := Int.floor_le q
    linarith

/-! ### Claim theorems -/

/-- C10: for every homography and pair of image dimensions, the paste
rectangle of the compositor fits inside the planned canvas: the
translation components are non-negative, tx plus the width of image B is
at most the canvas width, and ty plus the height of image B is at most
the canvas height, because the corners of image B participate in the
bounding-box union; the rectangular write of image B is therefore
in-bounds and covers a region of exactly the shape of image B. -/
theorem C10_paste_rectangle_in_bounds (H : Mat3) (w1 h1 w2 h2 : ℕ) :
    0 ≤ (canvasPlan H w1 h1 w2 h2).tx ∧
    0 ≤ (canvasPlan H w1 h1 w2 h2).ty ∧
    (canvasPlan H w1 h1 w2 h2).tx + (w2 : ℤ) ≤ (canvasPlan H w1 h1 w2 h2).sizeW ∧
    (canvasPlan H w1 h1 w2 h2).ty + (h2 : ℤ) ≤ (canvasPlan H w1 h1 w2 h2).sizeH := by
  have hx0 : (0 : ℚ) ∈ (allCorners H w1 h1 w2 h2).map Pt.x := by
    simp [allCorners, cornersOf]
  have hy0 : (0 : ℚ) ∈ (allCorners H w1 h1 w2 h2).map Pt.y := by
    simp [allCorners, cornersOf]
  have hxw : ((w2 : ℚ)) ∈ (allCorners H w1 h1 w2 h2).map Pt.x := by
    simp [allCorners, cornersOf]
  have hyh : ((h2 : ℚ)) ∈ (allCorners H w1 h1 w2 h2).map Pt.y := by
    simp [allCorners, cornersOf]
  have hxmin : truncZ (minQ ((allCorners H w1 h1 w2 h2).map Pt.x)) ≤ 0 :=
    truncZ_nonpos (minQ_le_of_mem hx0)
  have hymin : truncZ (minQ ((allCorners H w1 h1 w2 h2).map Pt.y)) ≤ 0 :=
    truncZ_nonpos (minQ_le_of_mem hy0)
  have hxmax : (w2 : ℤ) ≤ truncZ (maxQ ((allCorners H w1 h1 w2 h2).map Pt.x)) :=
    natCast_le_truncZ (le_maxQ_of_mem hxw)
  have hymax : (h2 : ℤ) ≤ truncZ (maxQ ((allCorners H w1 h1 w2 h2).map Pt.y)) :=
    natCast_le_truncZ (le_maxQ_of_mem hyh)
  simp only [canvasPlan, CanvasPlan.tx, CanvasPlan.ty, CanvasPlan.sizeW,
    CanvasPlan.sizeH]
  omega

/-- C2 (amended): the planner truncates the extremal corner coordinates
toward zero (the int32 cast) instead of flooring the minima and ceiling
the maxima, so the translated corner coordinates are only guaranteed to
exceed -1, not to be non-negative. -/
theorem C2_translated_corners_exceed_neg_one (H : Mat3) (w1 h1 w2 h2 : ℕ) :
    ∀ c ∈ allCorners H w1 h1 w2 h2,
      (-1 : ℚ) < c.x + ((canvasPlan H w1 h1 w2 h2).tx : ℚ) ∧
      (-1 : ℚ) < c.y + ((canvasPlan H w1 h1 w2 h2).ty : ℚ) := by
  intro c hc
  have hx : minQ ((allCorners H w1 h1 w2 h2).map Pt.x) ≤ c.x :=
    minQ_le_of_mem (List.mem_map_of_mem Pt.x hc)
  have hy : minQ ((allCorners H w1 h1 w2 h2).map Pt.y) ≤ c.y :=
    minQ_le_of_mem (List.mem_map_of_mem Pt.y hc)
  have hx1 := truncZ_lt_add_one (minQ ((allCorners H w1 h1 w2 h2).map Pt.x))
  have hy1 := truncZ_lt_add_one (minQ ((allCorners H w1 h1 w2 h2).map Pt.y))
  constructor
  · simp only [canvasPlan, CanvasPlan.tx]
    push_cast
    linarith
  · simp only [canvasPlan, CanvasPlan.ty]
    push_cast
    linarith

/-- Witness for the amended C2 theorem at the identity homography and
100 by 100 images, instantiated at the first corner of image A. -/
theorem C2_translated_corners_exceed_neg_one_witness :
    (-1 : ℚ) < (0 : ℚ) + ((canvasPlan idMat3 100 100 100 100).tx : ℚ) ∧
    (-1 : ℚ) < (0 : ℚ) + ((canvasPlan idMat3 100 100 100 100).ty : ℚ) :=
  C2_translated_corners_exceed_neg_one idMat3 100 100 100 100 ⟨0, 0⟩
    (by simp [allCorners, cornersOf])

/-- C2 counterexample: with a homography shifting image A left by half a
pixel, the script returns canvas width 100 and translation 0 while the
ceil/floor formula of the claim gives width 101 and translation 1; the
transformed first corner of image A lies at x = -1/2 and its translated
coordinate stays negative, refuting the non-negativity part as well. -/
theorem C2_counterexample :
    (canvasPlan hShiftNegHalf 100 100 100 100).sizeW = 100 ∧
    (canvasPlan hShiftNegHalf 100 100 100 100).tx = 0 ∧
    (canvasPlanSpecCF hShiftNegHalf 100 100 100 100).width = 101 ∧
    (canvasPlanSpecCF hShiftNegHalf 100 100 100 100).tx = 1 ∧
    (⟨-(1/2 : ℚ), 0⟩ : Pt) ∈ allCorners hShiftNegHalf 100 100 100 100 ∧
    -(1/2 : ℚ) + ((canvasPlan hShiftNegHalf 100 100 100 100).tx : ℚ) < 0 := by
  have hmin : minQ ((allCorners hShiftNegHalf 100 100 100 100).map Pt.x)
      = -(1/2) := by
    norm_num [allCorners, cornersOf, perspectiveTransform, hShiftNegHalf, minQ,
      min_def]
  have hmax : maxQ ((allCorners hShiftNegHalf 100 100 100 100).map Pt.x)
      = 100 := by
    norm_num [allCorners, cornersOf, perspectiveTransform, hShiftNegHalf, maxQ,
      max_def]
  have ht1 : truncZ (-(1/2 : ℚ)) = 0 := by norm_num [truncZ, Int.ceil_eq_iff]
  have ht2 : truncZ (100 : ℚ) = 100 := by norm_num [truncZ, Int.floor_eq_iff]
  have hf1 : (⌊-(1/2 : ℚ)⌋ : ℤ) = -1 := by norm_num [Int.floor_eq_iff]
  have hc1 : (⌈(100 : ℚ)⌉ : ℤ) = 100 := by norm_num [Int.ceil_eq_iff]
  refine ⟨?_, ?_, ?_, ?_, ?_, ?_⟩
  · simp only [canvasPlan, CanvasPlan.sizeW]
    rw [hmin, hmax, ht1, ht2]
    norm_num
  · simp only [canvasPlan, CanvasPlan.tx]
    rw [hmin, ht1]
    norm_num
  · simp only [canvasPlanSpecCF]
    rw [hmin, hmax, hf1, hc1]
    norm_num
  · simp only [canvasPlanSpecCF]
    rw [hmin, hf1]
    norm_num
  · norm_num [allCorners, cornersOf, perspectiveTransform, hShiftNegHalf]
  · simp only [canvasPlan, CanvasPlan.tx]
    rw [hmin, ht1]
    norm_num

/-- C6: in the concrete scenario where both images are 100 by 100 and the
homography moves image A one hundred pixels down, the union bounding box
is the box from (0, 0) to (100, 200) and the planner returns canvas size
(100, 200) with translation (0, 0). -/
theorem C6_canvas_union_concrete :
    (canvasPlan hShiftDown100 100 100 100 100).sizeW = 100 ∧
    (canvasPlan hShiftDown100 100 100 100 100).sizeH = 200 ∧
    (canvasPlan hShiftDown100 100 100 100 100).tx = 0 ∧
    (canvasPlan hShiftDown100 100 100 100 100).ty = 0 := by
  have hminx : minQ ((allCorners hShiftDown100 100 100 100 100).map Pt.x)
      = 0 := by
    norm_num [allCorners, cornersOf, perspectiveTransform, hShiftDown100, minQ,
      min_def]
  have hmaxx : maxQ ((allCorners hShiftDown100 100 100 100 100).map Pt.x)
      = 100 := by
    norm_num [allCorners, cornersOf, perspectiveTransform, hShiftDown100, maxQ,
      max_def]
  have hminy : minQ ((allCorners hShiftDown100 100 100 100 100).map Pt.y)
      = 0 := by
    norm_num [allCorners, cornersOf, perspectiveTransform, hShiftDown100, minQ,
      min_def]
  have hmaxy : maxQ ((allCorners hShiftDown100 100 100 100 100).map Pt.y)
      = 200 := by
    norm_num [allCorners, cornersOf, perspectiveTransform, hShiftDown100, maxQ,
      max_def]
  have ht0 : truncZ (0 : ℚ) = 0 := by norm_num [truncZ]
  have ht100 : truncZ (100 : ℚ) = 100 := by norm_num [truncZ, Int.floor_eq_iff]
  have ht200 : truncZ (200 : ℚ) = 200 := by norm_num [truncZ, Int.floor_eq_iff]
  refine ⟨?_, ?_, ?_, ?_⟩
  · simp only [canvasPlan, CanvasPlan.sizeW]
    rw [hminx, hmaxx, ht0, ht100]
    norm_num
  · simp only [canvasPlan, CanvasPlan.sizeH]
    rw [hminy, hmaxy, ht0, ht200]
    norm_num
  · simp only [canvasPlan, CanvasPlan.tx]
    rw [hminx, ht0]
    norm_num
  · simp only [canvasPlan, CanvasPlan.ty]
    rw [hminy, ht0]
    norm_num

/-- C1 (amended): the script proceeds to fit a homography exactly when
strictly more than ten good matches are available and prints the
not-enough-matches message otherwise; in particular three correspondences
(and also any count from four to ten) yield the failure. -/
theorem C1_gate_requires_more_than_ten (img1 img2 : Img) (good : List DMatch)
    (H : Mat3) :
    stitchTail img1 img2 good H = ScriptOutcome.notEnoughMatches ↔
      good.length ≤ 10 := by
  unfold stitchTail
  split
  · rename_i hgt
    constructor
    · intro h
      exact ScriptOutcome.noConfusion h
    · intro hle
      omega
  · rename_i hle
    simp only [true_iff]
    omega

/-- C1 counterexample: with four good matches the claim says the script
proceeds to fit a homography (four is not fewer than four), but the
script takes the failure branch. -/
theorem C1_counterexample :
    stitchTail (solidImg 100 100 0) (solidImg 100 100 0) fourMatches idMat3
      = ScriptOutcome.notEnoughMatches ∧
    ¬ fourMatches.length < 4 := by
  constructor
  · rfl
  · decide

/-- C3: with the ratio threshold 3/4, a match m is retained by the
ratio-test comprehension exactly when some paired second-best match n has
m.distance < 3/4 * n.distance, the inequality being strict; in
particular a match whose distance equals exactly 3/4 of the second-best
distance is not retained. -/
theorem C3_ratio_test_strict (ms : List (DMatch × DMatch)) (m : DMatch) :
    (m ∈ ratioTestPairs (3/4) ms ↔
      ∃ n, (m, n) ∈ ms ∧ m.distance < 3/4 * n.distance) ∧
    (∀ (i j : ℕ) (n : DMatch),
      (⟨i, j, 3/4 * n.distance⟩ : DMatch) ∉
        ratioTestPairs (3/4) [(⟨i, j, 3/4 * n.distance⟩, n)]) := by
  constructor
  · constructor
    · intro hmem
      simp only [ratioTestPairs, List.mem_map, List.mem_filter,
        decide_eq_true_eq] at hmem
      rcases hmem with ⟨⟨m1, n⟩, ⟨hmm, hlt⟩, hfst⟩
      subst hfst
      exact ⟨n, hmm, hlt⟩
    · rintro ⟨n, hmm, hlt⟩
      simp only [ratioTestPairs, List.mem_map, List.mem_filter,
        decide_eq_true_eq]
      exact ⟨(m, n), ⟨hmm, hlt⟩, rfl⟩
  · intro i j n hmem
    have hdec : decide ((3 : ℚ)/4 * n.distance < 3/4 * n.distance) = false :=
      decide_eq_false (lt_irrefl _)
    simp [ratioTestPairs, List.filter_cons, hdec] at hmem

/-- Witness for the C3 theorem: a boundary match with distance exactly
3/4 of the second-best distance 4 is rejected. -/
theorem C3_ratio_test_strict_witness :
    (⟨0, 0, 3/4 * (DMatch.mk 1 1 4).distance⟩ : DMatch) ∉
      ratioTestPairs (3/4) [(⟨0, 0, 3/4 * (DMatch.mk 1 1 4).distance⟩,
        DMatch.mk 1 1 4)] :=
  (C3_ratio_test_strict [] ⟨0, 0, 0⟩).2 0 0 (DMatch.mk 1 1 4)

/-- C4: the output of the compositor agrees with image B, verbatim and
unblended, on every pixel of the rectangle of the shape of image B at
offset (tx, ty), and agrees with the warped canvas on every pixel outside
that rectangle; the canvas dimensions are unchanged. -/
theorem C4_composite_overwrite (canvas b : Img) (tx ty y x : ℕ)
    (_hW : tx + b.width ≤ canvas.width) (_hH : ty + b.height ≤ canvas.height) :
    (compositeImg canvas b tx ty).width = canvas.width ∧
    (compositeImg canvas b tx ty).height = canvas.height ∧
    (ty ≤ y → y < ty + b.height → tx ≤ x → x < tx + b.width →
      (compositeImg canvas b tx ty).pix y x = b.pix (y - ty) (x - tx)) ∧
    ((y < ty ∨ ty + b.height ≤ y ∨ x < tx ∨ tx + b.width ≤ x) →
      (compositeImg canvas b tx ty).pix y x = canvas.pix y x) := by
  refine ⟨rfl, rfl, ?_, ?_⟩
  · intro h1 h2 h3 h4
    simp only [compositeImg]
    rw [if_pos ⟨h1, h2, h3, h4⟩]
  · intro hout
    simp only [compositeImg]
    rw [if_neg]
    rintro ⟨a1, a2, a3, a4⟩
    omega

/-- Witness for the C4 theorem: image A a 75 by 50 canvas of value 1,
image B a 50 by 50 image of value 2 pasted at (25, 0) (a fifty percent
horizontal overlap); the pixel (30, 10) of the overlap takes the value of
image B and the pixel (5, 10) left of the rectangle keeps the canvas
value. -/
theorem C4_composite_overwrite_witness :
    (compositeImg (solidImg 75 50 1) (solidImg 50 50 2) 25 0).pix 10 30 = 2 ∧
    (compositeImg (solidImg 75 50 1) (solidImg 50 50 2) 25 0).pix 10 5 = 1 := by
  constructor
  · exact (C4_composite_overwrite (solidImg 75 50 1) (solidImg 50 50 2) 25 0
      10 30 (by decide) (by decide)).2.2.1 (by decide) (by decide) (by decide)
      (by decide)
  · exact (C4_composite_overwrite (solidImg 75 50 1) (solidImg 50 50 2) 25 0
      10 5 (by decide) (by decide)).2.2.2 (by decide)

/-- C5 (amended): the ratio-test comprehension succeeds exactly when
every raw entry carries exactly two candidates (in particular on the
empty sequence, where it returns the empty sequence); an entry with fewer
or more than two candidates makes it raise a ValueError, so the filter is
not total on all provider outputs. -/
theorem C5_ok_iff_all_entries_pairs :
    (∀ (r : ℚ) (entries : List (List DMatch)),
      exceptOk (knnRatioFilter r entries)
        = entries.all fun l => l.length == 2) ∧
    knnRatioFilter (3/4) [] = Except.ok [] := by
  constructor
  · intro r entries
    induction entries with
    | nil => rfl
    | cons l t ih =>
      match l with
      | [] =>
        simp [knnRatioFilter, unpackPair2, exceptOk]
      | [a] =>
        simp [knnRatioFilter, unpackPair2, exceptOk]
      | [a, b] =>
        cases htm : knnRatioFilter r t with
        | error e =>
          rw [htm] at ih
          simp [knnRatioFilter, unpackPair2, exceptOk, htm, List.all_cons,
            ← ih]
        | ok out =>
          rw [htm] at ih
          simp [knnRatioFilter, unpackPair2, exceptOk, htm, List.all_cons,
            ← ih]
      | a :: b :: c :: rest =>
        simp [knnRatioFilter, unpackPair2, exceptOk]
  · rfl

/-- C5 counterexample: an input whose single entry carries one candidate
instead of two makes the comprehension raise a ValueError instead of
returning a filtered sequence, refuting totality. -/
theorem C5_counterexample :
    knnRatioFilter (3/4) [[⟨0, 0, 1⟩]]
      = Except.error "ValueError: not enough values to unpack" := rfl

/-- C7: neither pipeline stage writes the input images: the warp stage
binds a fresh canvas into the result field and the compositing stage
rewrites only the result field, so both image fields of the state are
identical before and after the run. -/
theorem C7_inputs_never_mutated (H : Mat3) (s : PipelineState) :
    (warpStage H s).img1 = s.img1 ∧
    (warpStage H s).img2 = s.img2 ∧
    (compositeStage H (warpStage H s)).img1 = s.img1 ∧
    (compositeStage H (warpStage H s)).img2 = s.img2 :=
  ⟨rfl, rfl, rfl, rfl⟩

/-- C8 counterexample: the two distinct failure kinds singular homography
and invalid canvas extent receive the same, absent, report from the
script, so a caller cannot distinguish them by the reported outcome. -/
theorem C8_counterexample :
    scriptReport FailureKind.singularHomography
        = scriptReport FailureKind.invalidCanvasExtent ∧
    FailureKind.singularHomography ≠ FailureKind.invalidCanvasExtent ∧
    scriptReport FailureKind.singularHomography = none :=
  ⟨rfl, by decide, rfl⟩

/-- C8 (amended): the script reports a failure outcome only for the
insufficient-correspondences condition, and that report is the single
generic console message; no other failure kind of the taxonomy of the
specification is reported at all, so no two failure kinds are
distinguishable by their reports. -/
theorem C8_single_generic_failure_report :
    (∀ k : FailureKind,
      (scriptReport k).isSome
        = decide (k = FailureKind.insufficientCorrespondences)) ∧
    scriptReport FailureKind.insufficientCorrespondences
      = some "Not enough good matches found!" := by
  constructor
  · intro k
    cases k <;> rfl
  · rfl

end Stitching
